import Mathlib

/-!
The example event and the MEX entry point of mex-integration.

A shallow embedding of `src/include/ExampleEvent.h` (class `XZCross`) and of
`src/example-mex-script.cpp` (class `MexFunction`), followed by the properties
proved about them.

Conventions of the embedding

* `double` is the type `Double` below: a rational number for a finite value, or one
  of the three non-finite values.  No arithmetic on doubles is performed by the
  embedded code; values are only copied, compared with zero and classified.
* `int` is `Int`; the embedded code only compares and copies `int` values.
* `std::vector<T>` is `List T`.  An unchecked `v[i]` outside the vector is undefined
  behaviour in C++; the embedding makes such a read return `none`.
* A MATLAB error (raised through `feval(u"error", ...)`) or a C++ exception thrown by
  the MATLAB API is the `error` branch of `Except MexError`.
-/

set_option linter.unusedVariables false

namespace MexIntegration

/-! ## Numeric values -/

/-- The values of a C++ `double`, as far as the program distinguishes them. -/
inductive Double where
  | finite (q : ℚ)
  | posInf
  | negInf
  | nan
  deriving DecidableEq

namespace Double

/-- The double zero, the content of a freshly allocated MATLAB array. -/
def zero : Double := finite 0

/-- The test `0 < d`. -/
def isPositive : Double → Bool
  | finite q => decide (0 < q)
  | posInf => true
  | _ => false

/-- The test `d < 0`. -/
def isNegative : Double → Bool
  | finite q => decide (q < 0)
  | negInf => true
  | _ => false

end Double

/-- The type `state_type` of the sources, a `std::vector<double>`. -/
abbrev state_type := List Double

/-! ## Event.h (not among the sources) -/

/-- Modelled from the spec: the data members of the base class `Event` (Event.h is
not among the sources).  Spec §3 and §4.3: a vector of maximum occurrence counts, one
per monitored function, and a mutable vector of current occurrence counts of the same
length. -/
structure Event where
  n_max_vals : List Int
  n_curr_vals : List Int
  deriving DecidableEq

namespace Event

/-- Modelled from the spec: the constructor of `Event` (Event.h is not among the
sources).  Spec §4.3: construction takes the vector of maximum occurrence counts; the
current-occurrence counter has the same length and starts at zero. -/
def new (n_max : List Int) : Event :=
  ⟨n_max, List.replicate n_max.length 0⟩

/-- Add one to entry `i` of a counter vector; other entries are unchanged. -/
def bump : List Int → Nat → List Int
  | [], _ => []
  | c :: cs, 0 => (c + 1) :: cs
  | c :: cs, i + 1 => c :: bump cs i

/-- Modelled from the spec: the engine's update of the occurrence counters
(EventIntegrator.h is not among the sources).  Spec §4.4 step 4: a confirmed occurrence
of function `i` increments the current-occurrence counter of function `i`, by exactly
one (§4.3). -/
def increment (self : Event) (i : Nat) : Event :=
  ⟨self.n_max_vals, bump self.n_curr_vals i⟩

end Event

/-! ## ExampleEvent.h -/

namespace XZCross

/-- The constructor `XZCross(int n_cross) : Event(std::vector<int>(1, n_cross))`. -/
def new (n_cross : Int) : Event :=
  Event.new (List.replicate 1 n_cross)

/-- The method `XZCross::event_fcn`: the one-element vector `{ state[1] }`.  The
result is `none` when `state[1]` is outside the vector. -/
def event_fcn (self : Event) (t : Double) (state : state_type) : Option state_type :=
  match state[1]? with
  | some y => some [y]
  | none => none

/-- The method `XZCross::terminate_fcn`: starts from `{ 0 }` and sets entry 0 to 1
when `n_curr_vals[0] >= n_max_vals[0]`.  The result is `none` when one of the two reads
is outside its vector. -/
def terminate_fcn (self : Event) (t : Double) (state : state_type) : Option (List Int) :=
  match self.n_curr_vals[0]?, self.n_max_vals[0]? with
  | some curr, some max =>
    let terminate : List Int := [0]
    if curr ≥ max then some (terminate.set 0 1) else some terminate
  | _, _ => none

/-- The method `XZCross::direction_fcn`: the constant vector `{ 0 }`. -/
def direction_fcn (self : Event) : List Int :=
  [0]

end XZCross

/-! ## The engine's treatment of confirmed crossings (EventIntegrator.h, not among the sources) -/

/-- Modelled from the spec: the direction filter of the engine (EventIntegrator.h is
not among the sources).  Spec §4.3: `-1` only falling through zero, `+1` only rising
through zero, `0` either direction.  `rising` tells the sign of the transition; the
result tells whether the candidate is kept. -/
def directionAccepts (direction : Int) (rising : Bool) : Bool :=
  if direction = 0 then true
  else if direction = 1 then rising
  else if direction = -1 then !rising
  else false

/-- Modelled from the spec: the part of the engine state that confirmed occurrences
change (EventIntegrator.h is not among the sources): the event with its counters, the
event trajectory of (time, state, function index) triples, and whether the engine is
in the state `Terminated`. -/
structure EngineState where
  ev : Event
  eventTrajectory : List (Double × state_type × Nat)
  terminated : Bool

/-- Modelled from the spec: steps 4 and 6 of §4.4 for one confirmed occurrence of
function `i` at `(t, x)` (EventIntegrator.h is not among the sources): record the
triple in the event trajectory, increment the counter of function `i`, then query
`terminate_fcn` at the occurrence; the engine is terminated when some flag is 1. -/
def confirmOccurrence (st : EngineState) (t : Double) (x : state_type) (i : Nat) :
    Option EngineState :=
  let ev := st.ev.increment i
  match XZCross.terminate_fcn ev t x with
  | some flags => some ⟨ev, st.eventTrajectory ++ [(t, x, i)], flags.any (fun f => f == 1)⟩
  | none => none

/-- Modelled from the spec: the engine run over the confirmed, direction-accepted
crossings of the single event function, in time order (EventIntegrator.h is not among
the sources).  Spec §4.4: stepping continues until the engine is `Terminated`; crossings
after that point are never reached. -/
def processCrossings : EngineState → List (Double × state_type) → Option EngineState
  | st, [] => some st
  | st, (t, x) :: rest =>
    if st.terminated then some st
    else
      match confirmOccurrence st t x 0 with
      | some st2 => processCrossings st2 rest
      | none => none

/-- Modelled from the spec: the engine state at the start of an integration with a
freshly constructed `XZCross` (spec §4.3, counters at zero; empty event trajectory). -/
def initialEngine (n_cross : Int) : EngineState :=
  ⟨XZCross.new n_cross, [], false⟩

/-- The event after `k` confirmed crossings of function 0, starting from `ev`. -/
def afterCrossings (ev : Event) : Nat → Event
  | 0 => ev
  | k + 1 => (afterCrossings ev k).increment 0

/-! ## The MATLAB data and MEX interfaces used by example-mex-script.cpp -/

/-- The array type tags of `matlab::data::ArrayType` that a caller can pass. -/
inductive ArrayType where
  | DOUBLE
  | SINGLE
  | INT32
  | LOGICAL
  | CHAR
  | CELL
  deriving DecidableEq

/-- The failure outcomes of a call: the three errors raised by `validate_args`; the
exceptions thrown by the MATLAB interfaces on an out-of-range argument index, an
out-of-range element index and a conversion to a typed array of the wrong type; and the
failures that the engine reports (spec §7): a configuration error and a failure during
stepping. -/
inductive MexError where
  | invalidInitialState
  | invalidTimeSpecification
  | invalidMassParameter
  | argumentIndexOutOfRange
  | invalidArrayIndex
  | invalidArrayType
  | configurationError
  | integrationFailure
  deriving DecidableEq

/-- A `matlab::data::Array`: its type tag, its dimensions and its elements in MATLAB's
own (column-major) order.  Numeric elements are carried as `Double` values whatever the
type tag. -/
structure MArray where
  type : ArrayType
  dims : List Nat
  data : List Double
  deriving DecidableEq

namespace MArray

/-- The method `Array::getType`. -/
def getType (a : MArray) : ArrayType := a.type

/-- The method `Array::getDimensions`. -/
def getDimensions (a : MArray) : List Nat := a.dims

/-- The method `Array::getNumberOfElements`: the product of the dimensions. -/
def getNumberOfElements (a : MArray) : Nat := a.dims.prod

/-- An array holds as many elements as its dimensions say. -/
def WellFormed (a : MArray) : Prop := a.data.length = a.dims.prod

instance (a : MArray) : Decidable a.WellFormed := by
  unfold WellFormed; infer_instance

/-- The element read `a[i]` converted to `double`; the MATLAB interface throws on an
index outside the array.  The conversion between element types is not modelled: the
elements of every array are carried as numeric values. -/
def elem (a : MArray) (i : Nat) : Except MexError Double :=
  match a.data[i]? with
  | some d => .ok d
  | none => .error .invalidArrayIndex

/-- The conversion `(TypedArray<double>) a`, read through `begin()` and `end()`: the
elements in order; the MATLAB interface throws when `a` is not a double array. -/
def toTypedDouble (a : MArray) : Except MexError (List Double) :=
  if a.type = .DOUBLE then .ok a.data else .error .invalidArrayType

/-- The entry in row `i` and column `j` of a two-dimensional array. -/
def entry (a : MArray) (i j : Nat) : Option Double :=
  match a.dims with
  | [rows, cols] => if i < rows ∧ j < cols then a.data[j * rows + i]? else none
  | _ => none

/-- The default-constructed `Array` and the result of `createEmptyArray`: the 0 x 0
array without elements. -/
def empty : MArray := ⟨.DOUBLE, [0, 0], []⟩

end MArray

/-- A `matlab::mex::ArgumentList`. -/
abbrev ArgumentList := List MArray

namespace ArgumentList

/-- The read `args[i]`; the MEX interface throws on an index outside the list. -/
def get (args : ArgumentList) (i : Nat) : Except MexError MArray :=
  match args[i]? with
  | some a => .ok a
  | none => .error .argumentIndexOutOfRange

/-- The assignment `args[i] = v`; the MEX interface throws on an index outside the
list. -/
def assign (args : ArgumentList) (i : Nat) (v : MArray) : Except MexError ArgumentList :=
  if i < args.length then .ok (args.set i v) else .error .argumentIndexOutOfRange

end ArgumentList

/-- The call `ArrayFactory::createArray(dims, begin, end)` with a column of `n`
elements: the elements are stored in the order given. -/
def createColumn (type : ArrayType) (n : Nat) (input : List Double) : MArray :=
  ⟨type, [n, 1], (List.range n).map (fun k => input.getD k Double.zero)⟩

/-- The call `ArrayFactory::createArray(dims, begin, end, InputLayout::ROW_MAJOR)` with
`dims = {rows, cols}`: a zero-initialised `rows x cols` array is allocated and filled
from the input read in row-major order, so that the element stored at column-major
position `k` (row `k % rows`, column `k / rows`) is input element
`(k % rows) * cols + k / rows`. -/
def createArrayRowMajor (rows cols : Nat) (input : List Double) : MArray :=
  ⟨.DOUBLE, [rows, cols],
    (List.range (rows * cols)).map
      (fun k => input.getD ((k % rows) * cols + k / rows) Double.zero)⟩

/-! ## example-mex-script.cpp -/

/-- The results read from `ei.integration_results` (EventIntegrator.h is not among
the sources): times, states, event times, event states and event indices. -/
structure IntegrationResults where
  t : state_type
  x : List state_type
  te : state_type
  xe : List state_type
  ie : List Int

/-- What `MexFunction::operator()` hands to the engine: the mass parameter of
`CR3BP system(mu)`, the count of `XZCross ce(n_cross)`, the three stepping parameters of
`EventIntegrator<rk78> ei(ce, AbsTol, RelTol, InitStep)` and the two arguments of
`ei.integrate_adaptive(system, x0, tspan)`. -/
structure IntegratorCall where
  mu : Double
  n_cross : Int
  AbsTol : Double
  RelTol : Double
  InitStep : Double
  x0 : state_type
  tspan : state_type
  deriving DecidableEq

namespace MexFunction

/-- The method `MexFunction::validate_args`.  Each `feval(u"error", ...)` raises a
MATLAB error, which ends the call. -/
def validate_args (outputs inputs : ArgumentList) : Except MexError Unit :=
  match inputs.get 0 with
  | .error e => .error e
  | .ok x0 =>
    if x0.getType ≠ ArrayType.DOUBLE ∨
        (x0.getDimensions ≠ [6, 1] ∧ x0.getDimensions ≠ [42, 1]) then
      .error .invalidInitialState
    else
      match inputs.get 1 with
      | .error e => .error e
      | .ok tspan =>
        if tspan.getType ≠ ArrayType.DOUBLE ∨ tspan.getNumberOfElements < 2 then
          .error .invalidTimeSpecification
        else
          match inputs.get 2 with
          | .error e => .error e
          | .ok mu =>
            if mu.getType ≠ ArrayType.DOUBLE ∨ mu.getNumberOfElements ≠ 1 then
              .error .invalidMassParameter
            else .ok ()

/-- The default stepping parameter `double AbsTol = 1e-16`. -/
def defaultAbsTol : Double := .finite (1 / 10 ^ 16)

/-- The default stepping parameter `double RelTol = 1e-13`. -/
def defaultRelTol : Double := .finite (1 / 10 ^ 13)

/-- The default stepping parameter `double InitStep = 1e-10`. -/
def defaultInitStep : Double := .finite (1 / 10 ^ 10)

/-- Lines 69 to 74 of `MexFunction::operator()`: the stepping parameters are the
defaults unless `inputs.size() == 7`, in which case they are read from inputs 4, 5
and 6 in this order. -/
def steppingParameters (inputs : ArgumentList) : Except MexError (Double × Double × Double) :=
  if inputs.length = 7 then do
    let AbsTol ← (← inputs.get 4).elem 0
    let RelTol ← (← inputs.get 5).elem 0
    let InitStep ← (← inputs.get 6).elem 0
    pure (AbsTol, RelTol, InitStep)
  else
    pure (defaultAbsTol, defaultRelTol, defaultInitStep)

/-- Lines 55 to 87 of `MexFunction::operator()`: validation, extraction of the inputs
and selection of the stepping parameters, up to the construction of the integrator.
`castInt` is the conversion `(int)` of an array element. -/
def setup (castInt : Double → Int) (outputs inputs : ArgumentList) :
    Except MexError IntegratorCall := do
  validate_args outputs inputs
  let x0_matlab ← (← inputs.get 0).toTypedDouble
  let tspan_matlab ← (← inputs.get 1).toTypedDouble
  let mu ← (← inputs.get 2).elem 0
  let n_cross := castInt (← (← inputs.get 3).elem 0)
  let (AbsTol, RelTol, InitStep) ← steppingParameters inputs
  let x0 : state_type := x0_matlab
  let tspan : state_type := tspan_matlab
  pure ⟨mu, n_cross, AbsTol, RelTol, InitStep, x0, tspan⟩

/-- The method `MexFunction::times2matlab`: a column of `cpp_times.size()` doubles. -/
def times2matlab (cpp_times : state_type) : MArray :=
  createColumn .DOUBLE cpp_times.length cpp_times

/-- The method `MexFunction::states2matlab`. -/
def states2matlab (cpp_states : List state_type) : MArray :=
  let linear_storage : List Double := cpp_states.flatten
  match cpp_states with
  | first :: _ =>
    if first.length = 6 then
      createArrayRowMajor cpp_states.length 6 linear_storage
    else if first.length = 42 then
      createArrayRowMajor cpp_states.length 42 linear_storage
    else MArray.empty
  | [] => MArray.empty

/-- The method `MexFunction::events2matlab`: a column of `cpp_ie.size()` integers. -/
def events2matlab (cpp_ie : List Int) : MArray :=
  createColumn .INT32 cpp_ie.length (cpp_ie.map (fun i => Double.finite i))

/-- The outcome of one call of the MEX function: the output list as the call leaves
it, the arguments with which the engine was entered at lines 81 to 90 (if it was) and
the error that ended the call (if any). -/
structure MexRun where
  outputs : ArgumentList
  integrated : Option IntegratorCall
  error : Option MexError

/-- Lines 104 to 109 of `MexFunction::operator()`: the five assignments to `outputs`,
in order; the first one that throws ends the call. -/
def setOutputs (outputs : ArgumentList) : Nat → List MArray → ArgumentList × Option MexError
  | _, [] => (outputs, none)
  | i, v :: vs =>
    match ArgumentList.assign outputs i v with
    | .ok outputs2 => setOutputs outputs2 (i + 1) vs
    | .error e => (outputs, some e)

/-- The method `MexFunction::operator()`.  `integrate` stands for the construction of
the system, the event and the integrator and for `ei.integrate_adaptive`
(EventIntegrator.h and CR3BP.h are not among the sources); a failure it reports is an
exception that `operator()` does not catch, so it ends the call before any output is
set. -/
def operator (castInt : Double → Int)
    (integrate : IntegratorCall → Except MexError IntegrationResults)
    (outputs inputs : ArgumentList) : MexRun :=
  match setup castInt outputs inputs with
  | .error e => ⟨outputs, none, some e⟩
  | .ok call =>
    match integrate call with
    | .error e => ⟨outputs, some call, some e⟩
    | .ok results =>
      let t := times2matlab results.t
      let te := times2matlab results.te
      let x := states2matlab results.x
      let xe := states2matlab results.xe
      let ie := events2matlab results.ie
      let (outputs2, err) := setOutputs outputs 0 [t, x, te, xe, ie]
      ⟨outputs2, some call, err⟩

end MexFunction

/-! ## The engine's configuration check (EventIntegrator.h, not among the sources) -/

/-- The conversion `(int) d` to a 32-bit `int`: truncation towards zero for a finite
double whose truncation lies between -2147483648 and 2147483647.  For every other value
the conversion is undefined in C++; the value -2147483648 that the x86-64 conversion
instruction yields is used here. -/
def Double.toInt : Double → Int
  | .finite q =>
    if -2147483648 ≤ Int.tdiv q.num q.den ∧ Int.tdiv q.num q.den ≤ 2147483647 then
      Int.tdiv q.num q.den
    else -2147483648
  | _ => -2147483648

/-- A stand-in for the stepping loop that records the start of the integration only. -/
def recordStart (call : IntegratorCall) : Except MexError IntegrationResults :=
  .ok ⟨call.tspan.take 1, [call.x0], [], [], []⟩

/-- A 1 x 1 double array. -/
def scalar (d : Double) : MArray := ⟨.DOUBLE, [1, 1], [d]⟩

/-- A 1 x n double array. -/
def row (ds : List Double) : MArray := ⟨.DOUBLE, [1, ds.length], ds⟩

/-- A 6 x 1 double array, an initial state. -/
def sampleState : MArray :=
  ⟨.DOUBLE, [6, 1], [.finite 1, .finite 0, .finite 0, .finite 0, .finite 1, .finite 0]⟩

/-- An output list of five slots, as for `[t, x, te, xe, ie] = f(...)`. -/
def fiveOutputs : ArgumentList := List.replicate 5 MArray.empty

/-- The four-argument call `f(x0, [0 10], mu, 4)`. -/
def fourArguments : ArgumentList :=
  [sampleState, row [.finite 0, .finite 10], scalar (.finite (1 / 100)), scalar (.finite 4)]

/-- The three-argument call `f(x0, [0 10], mu)`. -/
def threeArguments : ArgumentList :=
  [sampleState, row [.finite 0, .finite 10], scalar (.finite (1 / 100))]

/-- The four-argument call `f(x0, [0 0], mu, 4)`, whose time span repeats one marker. -/
def equalMarkers : ArgumentList :=
  [sampleState, row [.finite 0, .finite 0], scalar (.finite (1 / 100)), scalar (.finite 4)]

/-- The seven-argument call `f(x0, [10 0], mu, 4, 1e-12, 1e-10, -1e-6)`, which
integrates backwards. -/
def backwardSeven : ArgumentList :=
  [sampleState, row [.finite 10, .finite 0], scalar (.finite (1 / 100)), scalar (.finite 4),
    scalar (.finite (1 / 10 ^ 12)), scalar (.finite (1 / 10 ^ 10)),
    scalar (.finite (-(1 / 10 ^ 6)))]

/-- The one-argument call `f(x0)` with a 3 x 1 initial state. -/
def shortState : ArgumentList :=
  [⟨.DOUBLE, [3, 1], [.finite 1, .finite 0, .finite 0]⟩]

/-! ## Properties of `XZCross` -/

namespace XZCross

/-- C1: `terminate_fcn` decides from the event's own counters only.  Whenever both
counter vectors have an entry 0 (`curr` and `max`), for every time and every state the
result is a one-element vector whose entry is 1 exactly when `curr >= max` and 0
exactly when not, and the result is the same for every other time and state. -/
theorem terminate_fcn_counters_only (curr max : Int) (currs maxs : List Int)
    (t : Double) (state : state_type) :
    (∃ flag : Int,
        terminate_fcn ⟨max :: maxs, curr :: currs⟩ t state = some [flag] ∧
        (flag = 1 ↔ curr ≥ max) ∧ (flag = 0 ↔ ¬ curr ≥ max)) ∧
    ∀ (t2 : Double) (state2 : state_type),
      terminate_fcn ⟨max :: maxs, curr :: currs⟩ t2 state2 =
        terminate_fcn ⟨max :: maxs, curr :: currs⟩ t state := by
  refine ⟨?_, fun _ _ => rfl⟩
  by_cases h : curr ≥ max
  · exact ⟨1, by simp [terminate_fcn, h], by simp [h], by simp [h]⟩
  · exact ⟨0, by simp [terminate_fcn, h], by simp [h], by simp [h]⟩

/-- C3: `event_fcn` is the plane-crossing event function.  For every event object,
every time and every state with at least two components the result is the one-element
vector holding `state[1]`; that value is zero exactly when `state[1]` is zero; and the
result is the same for any other event object, time and state (of whatever length at
least two) with the same component 1. -/
theorem event_fcn_is_y (self : Event) (t : Double) (state : state_type)
    (h : 2 ≤ state.length) :
    event_fcn self t state = some [state[1]] ∧
    (event_fcn self t state = some [Double.zero] ↔ state[1] = Double.zero) ∧
    ∀ (self2 : Event) (t2 : Double) (state2 : state_type) (h2 : 2 ≤ state2.length),
      state2[1] = state[1] → event_fcn self2 t2 state2 = event_fcn self t state := by
  have key : ∀ (e : Event) (u : Double) (s : state_type) (hs : 2 ≤ s.length),
      event_fcn e u s = some [s[1]] := by
    intro e u s hs
    have h1 : s[1]? = some s[1] := List.getElem?_eq_getElem (by omega)
    simp [event_fcn, h1]
  refine ⟨key self t state h, ?_, ?_⟩
  · rw [key self t state h]; simp
  · intro self2 t2 state2 h2 heq
    rw [key self t state h, key self2 t2 state2 h2, heq]

/-- The witness of C3 on a state of six components. -/
theorem event_fcn_is_y_witness :
    2 ≤ ([.finite 1, .finite 0, .finite 3, .finite 4, .finite 5, .finite 6] :
        state_type).length ∧
    event_fcn (new 4) (Double.finite 0)
        [.finite 1, .finite 0, .finite 3, .finite 4, .finite 5, .finite 6] =
      some [Double.finite 0] :=
  ⟨by decide, (event_fcn_is_y (new 4) (Double.finite 0)
    [.finite 1, .finite 0, .finite 3, .finite 4, .finite 5, .finite 6] (by decide)).1⟩

end XZCross

/-! ## Auxiliary facts on the counters and the engine run -/

theorem XZCross.new_eq (n_cross : Int) : XZCross.new n_cross = ⟨[n_cross], [0]⟩ := rfl

theorem afterCrossings_new (n_cross : Int) (k : Nat) :
    afterCrossings (XZCross.new n_cross) k = ⟨[n_cross], [(k : Int)]⟩ := by
  induction k with
  | zero => rfl
  | succ k ih =>
    simp only [afterCrossings, ih, Event.increment, Event.bump]
    push_cast
    rfl

theorem terminate_fcn_single (n c : Int) (t : Double) (x : state_type) :
    XZCross.terminate_fcn ⟨[n], [c]⟩ t x = some [if n ≤ c then 1 else 0] := by
  by_cases h : n ≤ c <;> simp [XZCross.terminate_fcn, h]

theorem processCrossings_terminated (ev : Event) (traj : List (Double × state_type × Nat))
    (xs : List (Double × state_type)) :
    processCrossings ⟨ev, traj, true⟩ xs = some ⟨ev, traj, true⟩ := by
  cases xs with
  | nil => rfl
  | cons p rest => obtain ⟨t, x⟩ := p; simp [processCrossings]

theorem processCrossings_counting (n : Int) (xs : List (Double × state_type)) :
    ∀ (c : Int) (traj : List (Double × state_type × Nat)), c < n →
      processCrossings ⟨⟨[n], [c]⟩, traj, false⟩ xs =
        some ⟨⟨[n], [min (c + xs.length) n]⟩,
          traj ++ (xs.take (n - c).toNat).map (fun p => (p.1, p.2, 0)),
          decide (n ≤ c + xs.length)⟩ := by
  induction xs with
  | nil =>
    intro c traj hc
    have h1 : min c n = c := min_eq_left hc.le
    have h2 : ¬ n ≤ c := not_le.mpr hc
    simp [processCrossings, h1, h2]
  | cons p rest ih =>
    intro c traj hc
    obtain ⟨t, x⟩ := p
    have hpos : (n - c).toNat = (n - (c + 1)).toNat + 1 := by omega
    by_cases hlast : n ≤ c + 1
    · have hn : c + 1 = n := le_antisymm (by omega) hlast
      have h0 : (n - (c + 1)).toNat = 0 := by omega
      have hmin : min (c + ((rest.length : Int) + 1)) n = c + 1 := by
        rw [← hn]; exact min_eq_right (by omega)
      have hle : n ≤ c + ((rest.length : Int) + 1) := by omega
      simp [processCrossings, confirmOccurrence, Event.increment, Event.bump,
        terminate_fcn_single, hlast, processCrossings_terminated, hpos, h0, hmin, hle]
      exact hn
    · have hc2 : c + 1 < n := not_le.mp hlast
      have hassoc : c + 1 + (rest.length : Int) = c + ((rest.length : Int) + 1) := by ring
      simp [processCrossings, confirmOccurrence, Event.increment, Event.bump,
        terminate_fcn_single, hlast, ih (c + 1) _ hc2, hpos, hassoc]

/-! ## Occurrence counting and the direction filter -/

namespace XZCross

/-- C2: occurrence counting with termination wired to "counter >= max".  For an
`XZCross` built with `n_cross = n >= 1`, whose counter starts at zero and is incremented
by one per confirmed crossing: the flag of `terminate_fcn` is 0 after each of the first
`n - 1` crossings and 1 after the `n`-th; the engine run over any list of confirmed
crossings ends with the counter equal to `min(total crossings, n)`, is terminated exactly
when at least `n` crossings occur, has recorded the first `n` crossings and nothing
else, and so has exactly `n` event entries whenever at least `n` crossings occur. -/
theorem occurrence_counting (n : Int) (hn : 1 ≤ n) (crossings : List (Double × state_type)) :
    (∀ (k : Nat) (t : Double) (x : state_type), (k : Int) < n →
        terminate_fcn (afterCrossings (new n) k) t x = some [0]) ∧
    (∀ (k : Nat) (t : Double) (x : state_type), (k : Int) = n →
        terminate_fcn (afterCrossings (new n) k) t x = some [1]) ∧
    ∃ st : EngineState,
      processCrossings (initialEngine n) crossings = some st ∧
      st.ev = afterCrossings (new n) (min crossings.length n.toNat) ∧
      st.ev.n_curr_vals = [min (crossings.length : Int) n] ∧
      st.terminated = decide (n ≤ crossings.length) ∧
      st.eventTrajectory = (crossings.take n.toNat).map (fun p => (p.1, p.2, 0)) ∧
      (n ≤ crossings.length → (st.eventTrajectory.length : Int) = n) := by
  refine ⟨?_, ?_, ?_⟩
  · intro k t x hk
    rw [afterCrossings_new, terminate_fcn_single]
    simp [not_le.mpr hk]
  · intro k t x hk
    rw [afterCrossings_new, terminate_fcn_single]
    simp [hk]
  · have hrun := processCrossings_counting n crossings 0 [] (by omega)
    simp only [zero_add, sub_zero, List.nil_append] at hrun
    refine ⟨_, hrun, ?_, rfl, rfl, rfl, ?_⟩
    · rw [afterCrossings_new]
      have hcast : ((min crossings.length n.toNat : Nat) : Int) =
          min (crossings.length : Int) n := by omega
      rw [hcast]
    · intro hlen
      simp only [List.length_map, List.length_take]
      omega

/-- The witness of C2 for `n_cross = 3`, the case named in the specification. -/
theorem occurrence_counting_witness :
    (1 : Int) ≤ 3 ∧
    ∃ st : EngineState,
      processCrossings (initialEngine 3)
        [(.finite 1, []), (.finite 2, []), (.finite 3, []), (.finite 4, [])] = some st ∧
      st.ev.n_curr_vals = [min ((4 : Nat) : Int) 3] :=
  ⟨by decide,
    match occurrence_counting 3 (by decide)
        [(.finite 1, []), (.finite 2, []), (.finite 3, []), (.finite 4, [])] with
    | ⟨_, _, st, hrun, _, hcnt, _⟩ => ⟨st, hrun, hcnt⟩⟩

/-- C4: `direction_fcn` selects "either direction".  Whatever the event object holds,
the result is the one-element vector `{ 0 }`; it has as many entries as the results of
`event_fcn` and `terminate_fcn` and as the max-occurrence vector built by the
constructor; and every entry accepts a rising as well as a falling crossing. -/
theorem direction_fcn_either (self : Event) (n_cross : Int) (k : Nat) (t x0 y : Double)
    (rest : state_type) (rising : Bool) :
    direction_fcn self = [0] ∧
    (direction_fcn self).length = 1 ∧
    (event_fcn self t (x0 :: y :: rest)).map List.length =
      some (direction_fcn self).length ∧
    (terminate_fcn (afterCrossings (new n_cross) k) t (x0 :: y :: rest)).map List.length =
      some (direction_fcn self).length ∧
    (new n_cross).n_max_vals.length = (direction_fcn self).length ∧
    (direction_fcn self).all (fun d => directionAccepts d rising) = true := by
  refine ⟨rfl, rfl, ?_, ?_, rfl, ?_⟩
  · simp [event_fcn, direction_fcn]
  · rw [afterCrossings_new, terminate_fcn_single]
    simp [direction_fcn]
  · simp [direction_fcn, directionAccepts]

end XZCross

/-! ## Auxiliary facts on `validate_args` and the set-up of the call -/

namespace MexFunction

theorem validate_args_nil (outputs : ArgumentList) :
    validate_args outputs [] = .error .argumentIndexOutOfRange := rfl

theorem validate_args_cons (outputs : ArgumentList) (x0 : MArray) (rest : ArgumentList) :
    validate_args outputs (x0 :: rest) =
      if x0.getType ≠ ArrayType.DOUBLE ∨
          (x0.getDimensions ≠ [6, 1] ∧ x0.getDimensions ≠ [42, 1]) then
        .error .invalidInitialState
      else
        match rest with
        | [] => .error .argumentIndexOutOfRange
        | tspan :: rest2 =>
          if tspan.getType ≠ ArrayType.DOUBLE ∨ tspan.getNumberOfElements < 2 then
            .error .invalidTimeSpecification
          else
            match rest2 with
            | [] => .error .argumentIndexOutOfRange
            | mu :: _ =>
              if mu.getType ≠ ArrayType.DOUBLE ∨ mu.getNumberOfElements ≠ 1 then
                .error .invalidMassParameter
              else .ok () := by
  unfold validate_args
  simp only [ArgumentList.get, List.getElem?_cons_zero]
  split_ifs with h
  · rfl
  · cases rest with
    | nil => rfl
    | cons tspan rest2 =>
      simp only [List.getElem?_cons_succ, List.getElem?_cons_zero]
      split_ifs with h2
      · rfl
      · cases rest2 with
        | nil => rfl
        | cons mu rest3 => simp only [List.getElem?_cons_zero]

theorem validate_args_ok_iff (outputs inputs : ArgumentList) :
    validate_args outputs inputs = .ok () ↔
      ∃ (x0 tspan mu : MArray) (rest : ArgumentList),
        inputs = x0 :: tspan :: mu :: rest ∧
        x0.type = .DOUBLE ∧ (x0.dims = [6, 1] ∨ x0.dims = [42, 1]) ∧
        tspan.type = .DOUBLE ∧ 2 ≤ tspan.dims.prod ∧
        mu.type = .DOUBLE ∧ mu.dims.prod = 1 := by
  constructor
  · intro h
    cases inputs with
    | nil => simp [validate_args_nil] at h
    | cons x0 rest =>
      rw [validate_args_cons] at h
      split_ifs at h with h0
      cases rest with
      | nil => simp at h
      | cons tspan rest2 =>
        simp only at h
        split_ifs at h with h1
        cases rest2 with
        | nil => simp at h
        | cons mu rest3 =>
          simp only at h
          split_ifs at h with h2
          simp only [MArray.getType, MArray.getDimensions, MArray.getNumberOfElements, ne_eq,
            not_or, not_and, not_not, not_lt] at h0 h1 h2
          exact ⟨x0, tspan, mu, rest3, rfl, h0.1, by tauto, h1.1, h1.2, h2.1, h2.2⟩
  · rintro ⟨x0, tspan, mu, rest, rfl, h0, h0d, h1, h1n, h2, h2n⟩
    rw [validate_args_cons]
    have c0 : ¬ (x0.getType ≠ ArrayType.DOUBLE ∨
        (x0.getDimensions ≠ [6, 1] ∧ x0.getDimensions ≠ [42, 1])) := by
      simp only [MArray.getType, MArray.getDimensions]; tauto
    have c1 : ¬ (tspan.getType ≠ ArrayType.DOUBLE ∨ tspan.getNumberOfElements < 2) := by
      simp only [MArray.getType, MArray.getNumberOfElements, ne_eq, not_or, not_not, not_lt]
      exact ⟨h1, h1n⟩
    have c2 : ¬ (mu.getType ≠ ArrayType.DOUBLE ∨ mu.getNumberOfElements ≠ 1) := by
      simp only [MArray.getType, MArray.getNumberOfElements]; tauto
    simp only [c0, c1, c2, if_false]

theorem setup_of_validate_error (castInt : Double → Int) (outputs inputs : ArgumentList)
    (e : MexError) (h : validate_args outputs inputs = .error e) :
    setup castInt outputs inputs = .error e := by
  simp [setup, h, bind, Except.bind]

theorem operator_of_validate_error (castInt : Double → Int)
    (integrate : IntegratorCall → Except MexError IntegrationResults) (outputs inputs : ArgumentList)
    (e : MexError) (h : validate_args outputs inputs = .error e) :
    operator castInt integrate outputs inputs = ⟨outputs, none, some e⟩ := by
  simp [operator, setup_of_validate_error castInt outputs inputs e h]

end MexFunction

namespace MexFunction

theorem elem_zero_of_single (mu : MArray) (hwf : mu.WellFormed) (h1 : mu.dims.prod = 1) :
    ∃ d : Double, mu.elem 0 = .ok d := by
  unfold MArray.WellFormed at hwf
  rw [h1] at hwf
  match hd : mu.data with
  | [] => rw [hd] at hwf; simp at hwf
  | d :: _ => exact ⟨d, by simp [MArray.elem, hd]⟩

theorem steppingParameters_default (inputs : ArgumentList) (h : inputs.length ≠ 7) :
    steppingParameters inputs = .ok (defaultAbsTol, defaultRelTol, defaultInitStep) := by
  simp [steppingParameters, h, pure, Except.pure]

theorem steppingParameters_seven (x0 tspan mu n a r s : MArray) (dA dR dS : Double)
    (hA : a.elem 0 = .ok dA) (hR : r.elem 0 = .ok dR) (hS : s.elem 0 = .ok dS) :
    steppingParameters [x0, tspan, mu, n, a, r, s] = .ok (dA, dR, dS) := by
  simp [steppingParameters, ArgumentList.get, hA, hR, hS, bind, Except.bind, pure, Except.pure]

theorem setup_of_valid (castInt : Double → Int) (outputs : ArgumentList)
    (x0 tspan mu n : MArray) (rest : ArgumentList) (dmu dn : Double)
    (hv : validate_args outputs (x0 :: tspan :: mu :: n :: rest) = .ok ())
    (hmu : mu.elem 0 = .ok dmu) (hn : n.elem 0 = .ok dn) :
    setup castInt outputs (x0 :: tspan :: mu :: n :: rest) =
      match steppingParameters (x0 :: tspan :: mu :: n :: rest) with
      | .ok p => .ok ⟨dmu, castInt dn, p.1, p.2.1, p.2.2, x0.data, tspan.data⟩
      | .error e => .error e := by
  obtain ⟨y0, y1, y2, yrest, heq, t0, -, t1, -, -, -⟩ :=
    (validate_args_ok_iff outputs _).mp hv
  simp only [List.cons.injEq] at heq
  obtain ⟨rfl, rfl, rfl, -⟩ := heq
  cases hp : steppingParameters (x0 :: tspan :: mu :: n :: rest) with
  | error e =>
    simp [setup, hv, ArgumentList.get, MArray.toTypedDouble, t0, t1, hmu, hn, hp, bind,
      Except.bind]
  | ok p =>
    obtain ⟨pA, pR, pS⟩ := p
    simp [setup, hv, ArgumentList.get, MArray.toTypedDouble, t0, t1, hmu, hn, hp, bind,
      Except.bind, pure, Except.pure]

theorem setup_of_three (castInt : Double → Int) (outputs : ArgumentList)
    (x0 tspan mu : MArray) (dmu : Double)
    (hv : validate_args outputs [x0, tspan, mu] = .ok ())
    (hmu : mu.elem 0 = .ok dmu) :
    setup castInt outputs [x0, tspan, mu] = .error .argumentIndexOutOfRange := by
  obtain ⟨y0, y1, y2, yrest, heq, t0, -, t1, -, -, -⟩ :=
    (validate_args_ok_iff outputs _).mp hv
  simp only [List.cons.injEq] at heq
  obtain ⟨rfl, rfl, rfl, -⟩ := heq
  simp [setup, hv, ArgumentList.get, MArray.toTypedDouble, t0, t1, hmu, bind, Except.bind]

theorem operator_integrated (castInt : Double → Int)
    (integrate : IntegratorCall → Except MexError IntegrationResults) (outputs inputs : ArgumentList) :
    (operator castInt integrate outputs inputs).integrated =
      match setup castInt outputs inputs with
      | .ok call => some call
      | .error _ => none := by
  unfold operator
  cases setup castInt outputs inputs with
  | error e => rfl
  | ok call =>
    dsimp only
    cases integrate call <;> rfl

theorem setup_ok_shape (castInt : Double → Int) (outputs inputs : ArgumentList)
    (call : IntegratorCall) (hs : setup castInt outputs inputs = .ok call) :
    ∃ (x0 tspan mu n : MArray) (rest : ArgumentList) (dmu dn : Double),
      inputs = x0 :: tspan :: mu :: n :: rest ∧ validate_args outputs inputs = .ok () ∧
      mu.elem 0 = .ok dmu ∧ n.elem 0 = .ok dn := by
  have hv : validate_args outputs inputs = .ok () := by
    cases hv : validate_args outputs inputs with
    | error e => rw [setup_of_validate_error castInt outputs inputs e hv] at hs; simp at hs
    | ok u => rfl
  obtain ⟨x0, tspan, mu, rest, rfl, t0, -, t1, -, -, -⟩ :=
    (validate_args_ok_iff outputs inputs).mp hv
  cases hmu : mu.elem 0 with
  | error e =>
    simp [setup, hv, ArgumentList.get, MArray.toTypedDouble, t0, t1, hmu, bind,
      Except.bind] at hs
  | ok dmu =>
    cases rest with
    | nil => rw [setup_of_three castInt outputs x0 tspan mu dmu hv hmu] at hs; simp at hs
    | cons n rest2 =>
      cases hn : n.elem 0 with
      | error e =>
        simp [setup, hv, ArgumentList.get, MArray.toTypedDouble, t0, t1, hmu, hn, bind,
          Except.bind] at hs
      | ok dn => exact ⟨x0, tspan, mu, n, rest2, dmu, dn, rfl, hv, hmu, hn⟩

theorem setup_seven (castInt : Double → Int) (outputs : ArgumentList)
    (x0 tspan mu n a r s : MArray) (dmu dn dA dR dS : Double)
    (hv : validate_args outputs [x0, tspan, mu, n, a, r, s] = .ok ())
    (hmu : mu.elem 0 = .ok dmu) (hn : n.elem 0 = .ok dn)
    (hA : a.elem 0 = .ok dA) (hR : r.elem 0 = .ok dR) (hS : s.elem 0 = .ok dS) :
    setup castInt outputs [x0, tspan, mu, n, a, r, s] =
      .ok ⟨dmu, castInt dn, dA, dR, dS, x0.data, tspan.data⟩ := by
  rw [setup_of_valid castInt outputs _ _ _ _ _ dmu dn hv hmu hn,
    steppingParameters_seven _ _ _ _ _ _ _ dA dR dS hA hR hS]

theorem sample_valid (outputs : ArgumentList) (tspan : List Double) (mu : Double)
    (rest : ArgumentList) (h : 2 ≤ tspan.length) :
    validate_args outputs (sampleState :: row tspan :: scalar mu :: rest) = .ok () := by
  rw [validate_args_ok_iff]
  exact ⟨_, _, _, _, rfl, rfl, Or.inl rfl, rfl, by simpa [row] using h, rfl, rfl⟩

end MexFunction

/-! ## Validation and the call forms -/

namespace MexFunction

/-- C5: a bad initial state is reported before any stepping.  `validate_args` signals
the initial-state error exactly when there is a first input that is not of type double
or whose dimensions are neither 6 x 1 nor 42 x 1 (so every double 6 x 1 or 42 x 1 input
passes this check); and when it signals that error, `operator()` ends with it, having
made no engine call and having left the output list untouched. -/
theorem initial_state_validation (castInt : Double → Int)
    (integrate : IntegratorCall → Except MexError IntegrationResults) (outputs inputs : ArgumentList) :
    (validate_args outputs inputs = .error .invalidInitialState ↔
      ∃ (x0 : MArray) (rest : ArgumentList), inputs = x0 :: rest ∧
        (x0.getType ≠ ArrayType.DOUBLE ∨
          (x0.getDimensions ≠ [6, 1] ∧ x0.getDimensions ≠ [42, 1]))) ∧
    (validate_args outputs inputs = .error .invalidInitialState →
      operator castInt integrate outputs inputs =
        ⟨outputs, none, some .invalidInitialState⟩) := by
  refine ⟨?_, operator_of_validate_error castInt integrate outputs inputs _⟩
  cases inputs with
  | nil => simp [validate_args_nil]
  | cons x0 rest =>
    rw [validate_args_cons]
    constructor
    · intro h
      refine ⟨x0, rest, rfl, ?_⟩
      by_contra hbad
      rw [if_neg hbad] at h
      cases rest with
      | nil => simp at h
      | cons tspan rest2 =>
        cases rest2 with
        | nil => (try simp only at h); split_ifs at h <;> simp at h
        | cons mu rest3 => (try simp only at h); split_ifs at h <;> simp at h
    · rintro ⟨y0, yrest, heq, hbad⟩
      simp only [List.cons.injEq] at heq
      obtain ⟨rfl, rfl⟩ := heq
      rw [if_pos hbad]

/-- The witness of C5: a 3 x 1 initial state is rejected and no engine call is made. -/
theorem initial_state_validation_witness :
    validate_args fiveOutputs shortState = .error .invalidInitialState ∧
    operator Double.toInt recordStart fiveOutputs shortState =
      ⟨fiveOutputs, none, some .invalidInitialState⟩ :=
  ⟨rfl, (initial_state_validation Double.toInt recordStart fiveOutputs shortState).2 rfl⟩

/-- C6, the claim as stated fails: the time span `[0 0]` holds a single distinct
marker, yet `validate_args` signals no error and the engine is called with it. -/
theorem equal_markers_reach_engine :
    (row [.finite 0, .finite 0]).data.dedup.length < 2 ∧
    equalMarkers[1]? = some (row [.finite 0, .finite 0]) ∧
    validate_args fiveOutputs equalMarkers = .ok () ∧
    ((operator Double.toInt recordStart fiveOutputs equalMarkers).integrated.map
      (fun call => call.tspan)) = some [.finite 0, .finite 0] := by
  have hv : validate_args fiveOutputs equalMarkers = .ok () :=
    sample_valid fiveOutputs _ _ _ (by simp)
  refine ⟨by simp [row], rfl, hv, ?_⟩
  rw [operator_integrated, equalMarkers,
    setup_of_valid Double.toInt fiveOutputs _ _ _ _ _ (.finite (1 / 100)) (.finite 4) hv rfl rfl,
    steppingParameters_default _ (by simp)]
  rfl

/-- C6 as amended: the check on the time span counts elements, not distinct markers.
When the initial state passes its check, `validate_args` signals the time-specification
error exactly when the second input is not of type double or has fewer than 2 elements;
and then `operator()` ends with that error, having made no engine call. -/
theorem time_span_validation (castInt : Double → Int)
    (integrate : IntegratorCall → Except MexError IntegrationResults) (outputs : ArgumentList)
    (x0 tspan : MArray) (rest : ArgumentList)
    (hx0 : x0.getType = ArrayType.DOUBLE ∧
      (x0.getDimensions = [6, 1] ∨ x0.getDimensions = [42, 1])) :
    (validate_args outputs (x0 :: tspan :: rest) = .error .invalidTimeSpecification ↔
      (tspan.getType ≠ ArrayType.DOUBLE ∨ tspan.getNumberOfElements < 2)) ∧
    ((tspan.getType ≠ ArrayType.DOUBLE ∨ tspan.getNumberOfElements < 2) →
      operator castInt integrate outputs (x0 :: tspan :: rest) =
        ⟨outputs, none, some .invalidTimeSpecification⟩) := by
  have c0 : ¬ (x0.getType ≠ ArrayType.DOUBLE ∨
      (x0.getDimensions ≠ [6, 1] ∧ x0.getDimensions ≠ [42, 1])) := by tauto
  have hiff : validate_args outputs (x0 :: tspan :: rest) = .error .invalidTimeSpecification ↔
      (tspan.getType ≠ ArrayType.DOUBLE ∨ tspan.getNumberOfElements < 2) := by
    rw [validate_args_cons, if_neg c0]
    simp only
    constructor
    · intro h
      by_contra hbad
      rw [if_neg hbad] at h
      cases rest with
      | nil => simp at h
      | cons mu rest3 => (try simp only at h); split_ifs at h; simp at h
    · intro hbad
      rw [if_pos hbad]
  exact ⟨hiff, fun hbad =>
    operator_of_validate_error castInt integrate outputs _ _ (hiff.mpr hbad)⟩

/-- The witness of C6 as amended: a time span of one element is rejected. -/
theorem time_span_validation_witness :
    (sampleState.getType = ArrayType.DOUBLE ∧
      (sampleState.getDimensions = [6, 1] ∨ sampleState.getDimensions = [42, 1])) ∧
    operator Double.toInt recordStart fiveOutputs [sampleState, row [.finite 0]] =
      ⟨fiveOutputs, none, some .invalidTimeSpecification⟩ :=
  ⟨⟨rfl, Or.inl rfl⟩,
    (time_span_validation Double.toInt recordStart fiveOutputs sampleState (row [.finite 0]) []
      ⟨rfl, Or.inl rfl⟩).2 (Or.inr (by decide))⟩

end MexFunction

namespace MexFunction

/-- C8: the stepping parameters are selected by the call form.  Every seven-argument
call that passes `validate_args` and whose scalar inputs hold an element enters the
engine with the elements of inputs 5, 6 and 7 as `AbsTol`, `RelTol` and initial step, in
that order.  Every call with at least four inputs and a number of inputs other than
seven that passes `validate_args` and whose scalar inputs hold an element enters the
engine with `AbsTol = 1e-16`, `RelTol = 1e-13` and initial step `1e-10`, whatever the
time span.  Conversely, whenever `operator()` enters the engine: with exactly seven
inputs the parameters are the elements of inputs 5, 6 and 7; with any other number they
are the defaults, the initial step being positive; so a negative initial step only
comes from seven inputs. -/
theorem stepping_parameters_by_call_form (castInt : Double → Int)
    (integrate : IntegratorCall → Except MexError IntegrationResults)
    (outputs : ArgumentList) :
    (∀ (x0 tspan mu n a r s : MArray) (dmu dn dA dR dS : Double),
      validate_args outputs [x0, tspan, mu, n, a, r, s] = .ok () →
      mu.elem 0 = .ok dmu → n.elem 0 = .ok dn →
      a.elem 0 = .ok dA → r.elem 0 = .ok dR → s.elem 0 = .ok dS →
      (operator castInt integrate outputs [x0, tspan, mu, n, a, r, s]).integrated =
        some ⟨dmu, castInt dn, dA, dR, dS, x0.data, tspan.data⟩) ∧
    (∀ (x0 tspan mu n : MArray) (rest : ArgumentList) (dmu dn : Double),
      validate_args outputs (x0 :: tspan :: mu :: n :: rest) = .ok () →
      mu.elem 0 = .ok dmu → n.elem 0 = .ok dn →
      (x0 :: tspan :: mu :: n :: rest).length ≠ 7 →
      (operator castInt integrate outputs (x0 :: tspan :: mu :: n :: rest)).integrated =
        some ⟨dmu, castInt dn, .finite (1 / 10 ^ 16), .finite (1 / 10 ^ 13),
          .finite (1 / 10 ^ 10), x0.data, tspan.data⟩) ∧
    (∀ (inputs : ArgumentList) (call : IntegratorCall),
      (operator castInt integrate outputs inputs).integrated = some call →
      (inputs.length = 7 →
        ∃ a r s : MArray, inputs[4]? = some a ∧ inputs[5]? = some r ∧ inputs[6]? = some s ∧
          a.elem 0 = .ok call.AbsTol ∧ r.elem 0 = .ok call.RelTol ∧
          s.elem 0 = .ok call.InitStep) ∧
      (inputs.length ≠ 7 →
        call.AbsTol = .finite (1 / 10 ^ 16) ∧ call.RelTol = .finite (1 / 10 ^ 13) ∧
        call.InitStep = .finite (1 / 10 ^ 10) ∧ call.InitStep.isPositive = true ∧
        call.InitStep.isNegative = false) ∧
      (call.InitStep.isNegative = true → inputs.length = 7)) := by
  refine ⟨?_, ?_, ?_⟩
  · intro x0 tspan mu n a r s dmu dn dA dR dS hv hmu hn hA hR hS
    rw [operator_integrated,
      setup_seven castInt outputs _ _ _ _ _ _ _ dmu dn dA dR dS hv hmu hn hA hR hS]
  · intro y0 y1 y2 y3 yrest emu en hvy hmuy hny hlen
    rw [operator_integrated, setup_of_valid castInt outputs y0 y1 y2 y3 yrest emu en hvy hmuy hny,
      steppingParameters_default _ hlen]
    rfl
  · intro inputs call hcall
    have hpos : (Double.finite (1 / 10 ^ 10)).isPositive = true := by
      simp [Double.isPositive]
    have hneg : (Double.finite (1 / 10 ^ 10)).isNegative = false := by
      simp only [Double.isNegative, decide_eq_false_iff_not, not_lt]
      positivity
    rw [operator_integrated] at hcall
    have hs : setup castInt outputs inputs = .ok call := by
      cases hs : setup castInt outputs inputs with
      | error e => rw [hs] at hcall; simp at hcall
      | ok c => rw [hs] at hcall; simp only [Option.some.injEq] at hcall; rw [hcall]
    obtain ⟨x0, tspan, mu, n, rest2, dmu, dn, rfl, hv, hmu, hn⟩ :=
      setup_ok_shape castInt outputs inputs call hs
    have other : (x0 :: tspan :: mu :: n :: rest2).length ≠ 7 →
        call.AbsTol = .finite (1 / 10 ^ 16) ∧ call.RelTol = .finite (1 / 10 ^ 13) ∧
        call.InitStep = .finite (1 / 10 ^ 10) ∧ call.InitStep.isPositive = true ∧
        call.InitStep.isNegative = false := by
      intro hlen
      rw [setup_of_valid castInt outputs x0 tspan mu n rest2 dmu dn hv hmu hn,
        steppingParameters_default _ hlen] at hs
      simp only [Except.ok.injEq] at hs
      subst hs
      exact ⟨rfl, rfl, rfl, hpos, hneg⟩
    refine ⟨?_, other, ?_⟩
    · intro hlen
      have h3 : rest2.length = 3 := by simpa using hlen
      match rest2, h3 with
      | [a, r, s], _ =>
        refine ⟨a, r, s, rfl, rfl, rfl, ?_⟩
        rw [setup_of_valid castInt outputs x0 tspan mu n _ dmu dn hv hmu hn] at hs
        cases hA : a.elem 0 with
        | error e =>
          simp [steppingParameters, ArgumentList.get, hA, bind, Except.bind] at hs
        | ok dA =>
          cases hR : r.elem 0 with
          | error e =>
            simp [steppingParameters, ArgumentList.get, hA, hR, bind, Except.bind] at hs
          | ok dR =>
            cases hS : s.elem 0 with
            | error e =>
              simp [steppingParameters, ArgumentList.get, hA, hR, hS, bind, Except.bind] at hs
            | ok dS =>
              rw [steppingParameters_seven _ _ _ _ _ _ _ dA dR dS hA hR hS] at hs
              simp only [Except.ok.injEq] at hs
              subst hs
              exact ⟨rfl, rfl, rfl⟩
    · intro hnegative
      by_contra hlen
      rw [(other hlen).2.2.2.2] at hnegative
      exact Bool.noConfusion hnegative

/-- The witness of C8: the seven-argument call enters the engine with the supplied
parameters, among them a negative initial step, and the four-argument call enters it
with the defaults. -/
theorem stepping_parameters_by_call_form_witness :
    (operator Double.toInt recordStart fiveOutputs backwardSeven).integrated =
      some ⟨.finite (1 / 100), Double.toInt (.finite 4), .finite (1 / 10 ^ 12),
        .finite (1 / 10 ^ 10), .finite (-(1 / 10 ^ 6)), sampleState.data,
        (row [.finite 10, .finite 0]).data⟩ ∧
    (operator Double.toInt recordStart fiveOutputs fourArguments).integrated =
      some ⟨.finite (1 / 100), Double.toInt (.finite 4), .finite (1 / 10 ^ 16),
        .finite (1 / 10 ^ 13), .finite (1 / 10 ^ 10), sampleState.data,
        (row [.finite 0, .finite 10]).data⟩ :=
  ⟨(stepping_parameters_by_call_form Double.toInt recordStart fiveOutputs).1
      sampleState (row [.finite 10, .finite 0]) (scalar (.finite (1 / 100)))
      (scalar (.finite 4)) (scalar (.finite (1 / 10 ^ 12))) (scalar (.finite (1 / 10 ^ 10)))
      (scalar (.finite (-(1 / 10 ^ 6))))
      (.finite (1 / 100)) (.finite 4) (.finite (1 / 10 ^ 12)) (.finite (1 / 10 ^ 10))
      (.finite (-(1 / 10 ^ 6)))
      (sample_valid fiveOutputs _ _ _ (by decide)) rfl rfl rfl rfl rfl,
    (stepping_parameters_by_call_form Double.toInt recordStart fiveOutputs).2.1
      sampleState (row [.finite 0, .finite 10]) (scalar (.finite (1 / 100)))
      (scalar (.finite 4)) [] (.finite (1 / 100)) (.finite 4)
      (sample_valid fiveOutputs _ _ _ (by decide)) rfl rfl (by decide)⟩

/-- C10, evaluated at the three-argument call `f(x0, [0 10], mu)`: the list has no
entry 3, `validate_args` signals no error, and `operator()` then reads `inputs[3]`
outside the list; the call ends with the out-of-range exception of that read, not with
a validation error, and no engine call is made. -/
theorem three_arguments_read_out_of_range (castInt : Double → Int)
    (integrate : IntegratorCall → Except MexError IntegrationResults) (outputs : ArgumentList) :
    threeArguments.length = 3 ∧
    validate_args outputs threeArguments = .ok () ∧
    ArgumentList.get threeArguments 3 = .error .argumentIndexOutOfRange ∧
    operator castInt integrate outputs threeArguments =
      ⟨outputs, none, some .argumentIndexOutOfRange⟩ := by
  have hv : validate_args outputs threeArguments = .ok () :=
    sample_valid outputs _ _ _ (by decide)
  refine ⟨rfl, hv, rfl, ?_⟩
  unfold operator
  rw [threeArguments, setup_of_three castInt outputs _ _ _ (.finite (1 / 100)) hv rfl]

end MexFunction

/-! ## Conversion of the states -/

theorem flatten_getElem?_uniform {α : Type} (L : Nat) :
    ∀ (xs : List (List α)), (∀ s ∈ xs, s.length = L) → ∀ (i j : Nat), j < L →
      xs.flatten[i * L + j]? = (xs[i]?).bind (fun s => s[j]?) := by
  intro xs
  induction xs with
  | nil => intro _ i j _; simp
  | cons s rest ih =>
    intro hlen i j hj
    have hs : s.length = L := hlen s (List.mem_cons_self _ _)
    have hrest : ∀ u ∈ rest, u.length = L := fun u hu => hlen u (List.mem_cons_of_mem _ hu)
    cases i with
    | zero =>
      simp only [List.flatten_cons, zero_mul, zero_add, List.getElem?_cons_zero,
        Option.some_bind]
      exact List.getElem?_append_left (by omega)
    | succ i =>
      have hidx : (i + 1) * L + j = s.length + (i * L + j) := by rw [hs]; ring
      simp only [List.flatten_cons, List.getElem?_cons_succ]
      rw [hidx, List.getElem?_append_right (by omega), Nat.add_sub_cancel_left]
      exact ih hrest i j hj

theorem createArrayRowMajor_entry (rows cols : Nat) (input : List Double) (i j : Nat)
    (hi : i < rows) (hj : j < cols) :
    (createArrayRowMajor rows cols input).entry i j =
      some (input.getD (i * cols + j) Double.zero) := by
  have hlt : j * rows + i < rows * cols := by
    calc j * rows + i < j * rows + rows := by omega
      _ = (j + 1) * rows := by ring
      _ ≤ cols * rows := Nat.mul_le_mul_right rows hj
      _ = rows * cols := Nat.mul_comm _ _
  have hmod : (j * rows + i) % rows = i := by
    rw [Nat.add_comm, Nat.add_mul_mod_self_right, Nat.mod_eq_of_lt hi]
  have hdiv : (j * rows + i) / rows = j := by
    rw [Nat.add_comm, Nat.add_mul_div_right _ _ (by omega), Nat.div_eq_of_lt hi, Nat.zero_add]
  simp [createArrayRowMajor, MArray.entry, hi, hj, List.getElem?_range hlt, hlt, hmod, hdiv]

namespace MexFunction

/-- C9: `states2matlab` keeps the trajectory as a row-per-step matrix.  For every
non-empty list of `n` states that all have length `L`, with `L = 6` or `L = 42`, the
result has dimensions `n x L`, holds exactly `n * L` values, and its entry `(i, j)` is
`cpp_states[i][j]` for all `i < n` and `j < L`; for the empty list the result is the
empty array. -/
theorem states2matlab_row_per_step (cpp_states : List state_type) (L : Nat)
    (hne : cpp_states ≠ []) (hL : L = 6 ∨ L = 42)
    (hlen : ∀ s ∈ cpp_states, s.length = L) :
    (states2matlab cpp_states).getDimensions = [cpp_states.length, L] ∧
    (states2matlab cpp_states).data.length = cpp_states.length * L ∧
    (∀ i j : Nat, i < cpp_states.length → j < L →
      ∃ (s : state_type) (v : Double), cpp_states[i]? = some s ∧ s[j]? = some v ∧
        (states2matlab cpp_states).entry i j = some v) ∧
    states2matlab [] = MArray.empty := by
  obtain ⟨first, others, rfl⟩ := List.exists_cons_of_ne_nil hne
  have hfirst : first.length = L := hlen first (List.mem_cons_self _ _)
  have hconv : states2matlab (first :: others) =
      createArrayRowMajor (first :: others).length L (first :: others).flatten := by
    rcases hL with rfl | rfl <;> simp [states2matlab, hfirst]
  refine ⟨?_, ?_, ?_, rfl⟩
  · rw [hconv]; rfl
  · rw [hconv]; simp [createArrayRowMajor]
  · intro i j hi hj
    have hs : (first :: others)[i]? = some ((first :: others)[i]) :=
      List.getElem?_eq_getElem hi
    have hsl : ((first :: others)[i]).length = L := hlen _ (List.getElem_mem _)
    have hv : ((first :: others)[i])[j]? = some (((first :: others)[i])[j]) :=
      List.getElem?_eq_getElem (by omega)
    refine ⟨_, _, hs, hv, ?_⟩
    rw [hconv, createArrayRowMajor_entry _ _ _ i j hi hj, List.getD_eq_getElem?_getD,
      flatten_getElem?_uniform L _ hlen i j hj, hs]
    simp [hv]

/-- The witness of C9: a trajectory of two states of length 6. -/
theorem states2matlab_row_per_step_witness :
    (states2matlab
      [[.finite 1, .finite 2, .finite 3, .finite 4, .finite 5, .finite 6],
       [.finite 7, .finite 8, .finite 9, .finite 10, .finite 11, .finite 12]]).getDimensions =
      [2, 6] :=
  (states2matlab_row_per_step
    [[.finite 1, .finite 2, .finite 3, .finite 4, .finite 5, .finite 6],
     [.finite 7, .finite 8, .finite 9, .finite 10, .finite 11, .finite 12]] 6
    (by simp) (Or.inl rfl) (by simp)).1

end MexFunction

end MexIntegration
